import Mathlib

/-!
Verification of the role/permission authorization core of the fastbeetech API.

The definitions below are a shallow embedding of:
* `src/common/config/roles-permissions.ts` — permission catalog, per-role
  default permission table, role hierarchy and seniority predicates;
* `src/common/middleware/auth.ts` and
  `src/common/middleware/enhanced-auth.ts` — the two authorization
  middleware variants (`authorize`, `requirePermissions`,
  `requireAnyPermission`);
* `src/module/user/model.ts` — the user document and its pre-save hook that
  recomputes the stored effective permission set;
* `role-management.service.ts` — `assignRole`, `removeCustomPermissions`,
  `resetToRoleDefaults`, `bulkAssignRole`, `validateRoleTransition`.

Roles and permissions are plain strings, as in the source (the TypeScript
union types restrict literals at compile time but runtime values are
strings). JavaScript `Array.prototype.includes` and `indexOf` are embedded
as `jsIncludes` and `jsIndexOf` (the latter returning `-1 : Int` on a miss,
exactly as in JS). Mongoose documents are records; the database is an
association list keyed by user id; a thrown `Error` is `Except.error` with
the thrown message, which leaves the caller's database value untouched.
-/

/-- `ALL_PERMISSIONS` from `roles-permissions.ts`: the full permission
catalog, in declaration order. -/
def ALL_PERMISSIONS : List String :=
  [ "course:view", "course:create", "course:edit", "course:delete",
    "course:publish", "course:unpublish", "course:manage_own",
    "course:manage_all", "course:enroll_students", "course:view_analytics",
    "module:view", "module:create", "module:edit", "module:delete",
    "module:reorder", "module:manage_own", "module:manage_all",
    "content:view", "content:create", "content:edit", "content:delete",
    "content:upload", "content:download", "content:manage_own",
    "content:manage_all",
    "quiz:view", "quiz:create", "quiz:edit", "quiz:delete", "quiz:take",
    "quiz:view_results", "quiz:grade", "quiz:manage_own", "quiz:manage_all",
    "student:view", "student:enroll", "student:unenroll",
    "student:view_progress", "student:manage_progress",
    "student:issue_certificates", "student:communicate",
    "blog:view", "blog:create", "blog:edit", "blog:delete", "blog:publish",
    "blog:unpublish", "blog:comment", "blog:moderate_comments",
    "blog:manage_own", "blog:manage_all",
    "internship:view", "internship:apply", "internship:manage_applications",
    "internship:review_applications", "internship:accept_reject",
    "internship:communicate", "internship:manage_program",
    "user:view", "user:create", "user:edit", "user:delete",
    "user:manage_roles", "user:manage_permissions", "user:view_profile",
    "user:edit_profile", "user:impersonate",
    "analytics:view_basic", "analytics:view_advanced",
    "analytics:export_data", "analytics:view_financial",
    "system:backup", "system:restore", "system:configure",
    "system:maintenance", "system:logs",
    "payment:view", "payment:process", "payment:refund",
    "payment:view_reports", "payment:manage_pricing" ]

/-- The `ROLE_PERMISSIONS` record from `roles-permissions.ts`: each role's
declared default permission set; `none` for a key absent from the record
(the TypeScript record would yield `undefined`). -/
def ROLE_PERMISSIONS : String → Option (List String)
  | "user" =>
    some [ "course:view", "blog:view", "blog:comment", "internship:view",
           "internship:apply", "user:view_profile", "user:edit_profile" ]
  | "student" =>
    some [ "course:view", "module:view", "content:view", "content:download",
           "quiz:view", "quiz:take", "quiz:view_results", "student:enroll",
           "blog:view", "blog:comment", "internship:view",
           "internship:apply", "user:view_profile", "user:edit_profile",
           "analytics:view_basic" ]
  | "instructor" =>
    some [ "course:view", "course:create", "course:manage_own",
           "course:publish", "course:enroll_students",
           "course:view_analytics", "module:view", "module:create",
           "module:manage_own", "content:view", "content:create",
           "content:upload", "content:manage_own", "quiz:view",
           "quiz:create", "quiz:manage_own", "quiz:grade", "student:view",
           "student:view_progress", "student:issue_certificates",
           "student:communicate", "blog:view", "blog:comment",
           "user:view_profile", "user:edit_profile", "analytics:view_basic",
           "payment:view" ]
  | "author" =>
    some [ "course:view", "blog:view", "blog:create", "blog:manage_own",
           "blog:publish", "blog:comment", "internship:view",
           "user:view_profile", "user:edit_profile", "analytics:view_basic" ]
  | "editor" =>
    some [ "course:view", "course:edit", "module:view", "module:edit",
           "content:view", "content:edit", "quiz:view", "quiz:edit",
           "blog:view", "blog:create", "blog:edit", "blog:publish",
           "blog:unpublish", "blog:manage_all", "blog:moderate_comments",
           "internship:view", "user:view_profile", "user:edit_profile",
           "analytics:view_basic" ]
  | "moderator" =>
    some [ "course:view", "module:view", "content:view", "quiz:view",
           "student:view", "student:communicate", "blog:view", "blog:edit",
           "blog:publish", "blog:unpublish", "blog:moderate_comments",
           "blog:manage_all", "internship:view",
           "internship:review_applications", "internship:communicate",
           "user:view", "user:edit_profile", "analytics:view_basic" ]
  | "admin" =>
    some [ "course:view", "course:create", "course:edit", "course:delete",
           "course:publish", "course:unpublish", "course:manage_all",
           "course:enroll_students", "course:view_analytics",
           "module:view", "module:create", "module:edit", "module:delete",
           "module:reorder", "module:manage_all",
           "content:view", "content:create", "content:edit",
           "content:delete", "content:upload", "content:download",
           "content:manage_all",
           "quiz:view", "quiz:create", "quiz:edit", "quiz:delete",
           "quiz:grade", "quiz:manage_all",
           "student:view", "student:enroll", "student:unenroll",
           "student:view_progress", "student:manage_progress",
           "student:issue_certificates", "student:communicate",
           "blog:view", "blog:create", "blog:edit", "blog:delete",
           "blog:publish", "blog:unpublish", "blog:moderate_comments",
           "blog:manage_all",
           "internship:view", "internship:manage_applications",
           "internship:review_applications", "internship:accept_reject",
           "internship:communicate", "internship:manage_program",
           "user:view", "user:create", "user:edit", "user:manage_roles",
           "user:manage_permissions",
           "analytics:view_basic", "analytics:view_advanced",
           "analytics:export_data", "analytics:view_financial",
           "payment:view", "payment:process", "payment:refund",
           "payment:view_reports", "payment:manage_pricing" ]
  | "super-admin" => some ALL_PERMISSIONS
  | _ => none

/-- `getRolePermissions` from `roles-permissions.ts`:
`ROLE_PERMISSIONS[role] || []` — empty set for an unrecognized role. -/
def getRolePermissions (role : String) : List String :=
  (ROLE_PERMISSIONS role).getD []

/-- JavaScript `Array.prototype.includes` on an array of strings. -/
def jsIncludes (l : List String) (s : String) : Bool :=
  match l with
  | [] => false
  | x :: xs => if x = s then true else jsIncludes xs s

/-- JavaScript `Array.prototype.indexOf` on an array of strings:
index of the first occurrence, `-1` when absent. -/
def jsIndexOf (l : List String) (s : String) : Int :=
  match l with
  | [] => -1
  | x :: xs =>
    if x = s then 0
    else if jsIndexOf xs s = -1 then -1 else jsIndexOf xs s + 1

/-- `hasPermission` from `roles-permissions.ts`. -/
def hasPermission (userPermissions : List String) (required : String) : Bool :=
  jsIncludes userPermissions required

/-- `hasAnyPermission` from `roles-permissions.ts`:
`required.some(p => userPermissions.includes(p))`. -/
def hasAnyPermission (userPermissions required : List String) : Bool :=
  required.any (fun p => jsIncludes userPermissions p)

/-- `hasAllPermissions` from `roles-permissions.ts`:
`required.every(p => userPermissions.includes(p))`. -/
def hasAllPermissions (userPermissions required : List String) : Bool :=
  required.all (fun p => jsIncludes userPermissions p)

/-- `ROLE_HIERARCHY` from `roles-permissions.ts` (higher index = more
powerful). -/
def ROLE_HIERARCHY : List String :=
  [ "user", "student", "author", "instructor", "editor", "moderator",
    "admin", "super-admin" ]

/-- `hasHigherRole` from `roles-permissions.ts`:
`ROLE_HIERARCHY.indexOf(userRole) > ROLE_HIERARCHY.indexOf(targetRole)`. -/
def hasHigherRole (userRole targetRole : String) : Bool :=
  decide (jsIndexOf ROLE_HIERARCHY targetRole < jsIndexOf ROLE_HIERARCHY userRole)

/-- `canManageUser` from `roles-permissions.ts`: managers can only manage
users with strictly lower roles. -/
def canManageUser (managerRole targetRole : String) : Bool :=
  hasHigherRole managerRole targetRole

/-! ### Basic lemmas about the JS array helpers -/

theorem jsIncludes_iff (l : List String) (s : String) :
    jsIncludes l s = true ↔ s ∈ l := by
  induction l with
  | nil => simp [jsIncludes]
  | cons x xs ih =>
    by_cases h : x = s
    · subst h; simp [jsIncludes]
    · simp [jsIncludes, h, ih, Ne.symm h]

theorem jsIndexOf_eq_neg_one (l : List String) (s : String)
    (h : s ∉ l) : jsIndexOf l s = -1 := by
  induction l with
  | nil => simp [jsIndexOf]
  | cons x xs ih =>
    simp only [List.mem_cons, not_or] at h
    simp [jsIndexOf, Ne.symm h.1, ih h.2]

theorem jsIndexOf_nonneg (l : List String) (s : String)
    (h : s ∈ l) : 0 ≤ jsIndexOf l s := by
  induction l with
  | nil => simp at h
  | cons x xs ih =>
    by_cases hx : x = s
    · simp [jsIndexOf, hx]
    · simp only [List.mem_cons] at h
      rcases h with h | h
      · exact absurd h.symm hx
      · have hr := ih h
        simp only [jsIndexOf, if_neg hx]
        split <;> omega

theorem canManageUser_self (r : String) : canManageUser r r = false := by
  simp [canManageUser, hasHigherRole]

/-! ### Seniority order (claims C7, C10) -/

/-- C7: `hasHigherRole` (the code's `isSenior`) is a strict total order on
the eight roles of `ROLE_HIERARCHY`, consistent with the declared chain
`user < student < author < instructor < editor < moderator < admin <
super-admin`: it is irreflexive, asymmetric, transitive and total on the
hierarchy, holds exactly when the first role's hierarchy index is strictly
greater than the second's, and orders each adjacent pair of the chain. -/
theorem hasHigherRole_strict_total_order :
    (∀ a ∈ ROLE_HIERARCHY, hasHigherRole a a = false) ∧
    (∀ a ∈ ROLE_HIERARCHY, ∀ b ∈ ROLE_HIERARCHY,
      hasHigherRole a b = true → hasHigherRole b a = false) ∧
    (∀ a ∈ ROLE_HIERARCHY, ∀ b ∈ ROLE_HIERARCHY, ∀ c ∈ ROLE_HIERARCHY,
      hasHigherRole a b = true → hasHigherRole b c = true →
      hasHigherRole a c = true) ∧
    (∀ a ∈ ROLE_HIERARCHY, ∀ b ∈ ROLE_HIERARCHY, a ≠ b →
      hasHigherRole a b = true ∨ hasHigherRole b a = true) ∧
    (∀ i j : Fin 8,
      hasHigherRole (ROLE_HIERARCHY.getD i "") (ROLE_HIERARCHY.getD j "") = true ↔
        (j : Nat) < (i : Nat)) ∧
    (hasHigherRole "student" "user" = true ∧
     hasHigherRole "author" "student" = true ∧
     hasHigherRole "instructor" "author" = true ∧
     hasHigherRole "editor" "instructor" = true ∧
     hasHigherRole "moderator" "editor" = true ∧
     hasHigherRole "admin" "moderator" = true ∧
     hasHigherRole "super-admin" "admin" = true) := by
  decide

theorem hasHigherRole_strict_total_order_witness :
    hasHigherRole "admin" "admin" = false :=
  hasHigherRole_strict_total_order.1 "admin" (by decide)

/-- C10: a role string outside `ROLE_HIERARCHY` gets JS `indexOf` value
`-1`, hence is strictly below every recognized role: it is never senior to
(and can never manage) any recognized role, every recognized role —
including the lowest, `user` — is senior to it and can manage it, and no
unrecognized role is senior to another unrecognized role. -/
theorem hasHigherRole_unrecognized_below_all :
    ∀ u : String, u ∉ ROLE_HIERARCHY →
      (∀ k ∈ ROLE_HIERARCHY,
        hasHigherRole u k = false ∧ canManageUser u k = false ∧
        hasHigherRole k u = true ∧ canManageUser k u = true) ∧
      (∀ v : String, v ∉ ROLE_HIERARCHY →
        hasHigherRole u v = false ∧ hasHigherRole v u = false) := by
  intro u hu
  constructor
  · intro k hk
    have hKu : 0 ≤ jsIndexOf ROLE_HIERARCHY k := jsIndexOf_nonneg _ _ hk
    have hUu : jsIndexOf ROLE_HIERARCHY u = -1 := jsIndexOf_eq_neg_one _ _ hu
    refine ⟨?_, ?_, ?_, ?_⟩ <;>
      simp [hasHigherRole, canManageUser, hUu] <;> omega
  · intro v hv
    have hU : jsIndexOf ROLE_HIERARCHY u = -1 := jsIndexOf_eq_neg_one _ _ hu
    have hV : jsIndexOf ROLE_HIERARCHY v = -1 := jsIndexOf_eq_neg_one _ _ hv
    constructor <;> simp [hasHigherRole, hU, hV]

theorem hasHigherRole_unrecognized_below_all_witness :
    hasHigherRole "user" "ghost" = true :=
  ((hasHigherRole_unrecognized_below_all "ghost" (by decide)).1
    "user" (by decide)).2.2.1

/-! ### Authorization middleware (claim C1)

`src/common/middleware/auth.ts` (namespace `Auth`) and
`src/common/middleware/enhanced-auth.ts` (namespace `EnhancedAuth`) each
export an `authorize` role gate; the enhanced file also exports the
permission gates `requirePermissions` (all-of) and `requireAnyPermission`
(any-of). A gate either calls `next()` or responds 401/403; we record the
decision and the message. -/

/-- The request principal set by `authenticate`: role and effective
permissions. `req.user` itself may be absent (`Option`). -/
structure ReqUser where
  role : String
  permissions : List String
deriving DecidableEq, Repr

/-- Outcome of a middleware gate: pass (`next()`), 401, or 403. -/
inductive GateResult where
  | next : GateResult
  | unauthorized (message : String) : GateResult
  | forbidden (message : String) : GateResult
deriving DecidableEq, Repr

namespace Auth

/-- `authorize` from `auth.ts`: 401 when no (truthy) role, then the
hard-coded super-admin bypass, then the allow-list check. -/
def authorize (allowedRoles : List String) (user : Option ReqUser) : GateResult :=
  match user with
  | none => .unauthorized "Unauthorized"
  | some u =>
    if u.role = "" then .unauthorized "Unauthorized"
    else if u.role = "super-admin" then .next
    else if jsIncludes allowedRoles u.role then .next
    else .forbidden "Forbidden: insufficient role"

/-- `requirePermissions` from `auth.ts`: 403 listing the missing
permissions when any required one is absent (no super-admin bypass in this
legacy file). -/
def requirePermissions (required : List String) (user : Option ReqUser) : GateResult :=
  let perms := (user.map ReqUser.permissions).getD []
  let missing := required.filter (fun p => !(jsIncludes perms p))
  if missing ≠ [] then .forbidden "Forbidden: missing permissions"
  else .next

end Auth

namespace EnhancedAuth

/-- `authorize` from `enhanced-auth.ts`: 401 when no (truthy) role, then
the allow-list check — this variant has NO super-admin bypass. -/
def authorize (allowedRoles : List String) (user : Option ReqUser) : GateResult :=
  match user with
  | none => .unauthorized "Unauthorized"
  | some u =>
    if u.role = "" then .unauthorized "Unauthorized"
    else if jsIncludes allowedRoles u.role then .next
    else .forbidden "Forbidden: insufficient role"

/-- `requirePermissions` from `enhanced-auth.ts`: super-admin bypasses
before the permission list is consulted; otherwise 403 when any required
permission is missing. -/
def requirePermissions (required : List String) (user : Option ReqUser) : GateResult :=
  if user.map ReqUser.role = some "super-admin" then .next
  else
    let perms := (user.map ReqUser.permissions).getD []
    let missing := required.filter (fun p => !(jsIncludes perms p))
    if missing ≠ [] then .forbidden "Forbidden: missing permissions"
    else .next

/-- `requireAnyPermission` from `enhanced-auth.ts`: super-admin bypasses
before the permission list is consulted; otherwise 403 unless
`hasAnyPermission` holds. -/
def requireAnyPermission (permissions : List String) (user : Option ReqUser) : GateResult :=
  if user.map ReqUser.role = some "super-admin" then .next
  else
    let perms := (user.map ReqUser.permissions).getD []
    if !(hasAnyPermission perms permissions) then
      .forbidden "Forbidden: insufficient permissions (need any one of the listed permissions)"
    else .next

end EnhancedAuth

/-- C1 counterexample: the claim says the role gate `authorize` passes for
a super-admin principal for EVERY allow-list, but `enhanced-auth.ts`'s
`authorize` has no super-admin bypass: with allow-list `["admin"]` it
rejects a super-admin principal with 403 instead of calling `next()`. -/
theorem authorize_superAdmin_bypass_counterexample :
    EnhancedAuth.authorize ["admin"] (some ⟨"super-admin", []⟩) =
      GateResult.forbidden "Forbidden: insufficient role" ∧
    EnhancedAuth.authorize ["admin"] (some ⟨"super-admin", []⟩) ≠
      GateResult.next := by
  decide

/-- C1 amended: for a super-admin principal, the `auth.ts` role gate
`authorize` and the `enhanced-auth.ts` permission gates
`requirePermissions` / `requireAnyPermission` pass for every allow-list,
every required-permission list and every principal permission set — the
bypass is decided before the lists are consulted; the `enhanced-auth.ts`
role gate `authorize`, however, has no bypass and passes exactly when the
allow-list contains `super-admin`. -/
theorem authorize_superAdmin_bypass_amended :
    ∀ (allowedRoles required anyPerms userPerms : List String),
      Auth.authorize allowedRoles (some ⟨"super-admin", userPerms⟩) =
        GateResult.next ∧
      EnhancedAuth.requirePermissions required
        (some ⟨"super-admin", userPerms⟩) = GateResult.next ∧
      EnhancedAuth.requireAnyPermission anyPerms
        (some ⟨"super-admin", userPerms⟩) = GateResult.next ∧
      (EnhancedAuth.authorize allowedRoles (some ⟨"super-admin", userPerms⟩) =
          GateResult.next ↔
        jsIncludes allowedRoles "super-admin" = true) := by
  intro allowedRoles required anyPerms userPerms
  refine ⟨rfl, rfl, rfl, ?_⟩
  by_cases h : jsIncludes allowedRoles "super-admin" = true
  · simp [EnhancedAuth.authorize, h]
  · simp [EnhancedAuth.authorize, h]

theorem authorize_superAdmin_bypass_amended_witness :
    Auth.authorize ["editor"] (some ⟨"super-admin", []⟩) = GateResult.next :=
  (authorize_superAdmin_bypass_amended ["editor"] ["blog:publish"] ["user:view"] []).1

/-! ### User document and the pre-save hook (claims C2, C8)

`src/module/user/model.ts`. A user document carries a legacy single `role`
(optional string with JS falsiness: absent or `""` counts as unset), a
multi-role `roles` array — embedded here as `rolesPerms`, the permission
arrays of the referenced `Role` documents as resolved by the hook's
`Role.find` — the cached effective `permissions`, and the per-user
`extraPermissions` grants. -/

structure UserDoc where
  role : Option String
  rolesPerms : List (List String)
  permissions : List String
  extraPermissions : List String
deriving DecidableEq, Repr

/-- JS `new Set(list)` followed by `Array.from`: first occurrences kept in
order. The `seen` accumulator holds the elements already emitted. -/
def jsSetDedupAux : List String → List String → List String
  | [], _ => []
  | x :: xs, seen =>
    if jsIncludes seen x then jsSetDedupAux xs seen
    else x :: jsSetDedupAux xs (x :: seen)

/-- `Array.from(new Set(list))`. -/
def jsSetDedup (l : List String) : List String :=
  jsSetDedupAux l []

/-- The role-derived permissions computed by the pre-save hook: from the
`roles` array's `Role` documents when that array is non-empty, otherwise
from the legacy single `role` via `getRolePermissions` (a falsy role
yields no permissions). -/
def computedRolePermissions (u : UserDoc) : List String :=
  match u.rolesPerms with
  | [] =>
    match u.role with
    | some r => if r = "" then [] else getRolePermissions r
    | none => []
  | rps => rps.flatten

/-- The `UserSchema.pre('save')` hook of `model.ts`: recompute the stored
`permissions` as the deduplicated union of the role-derived permissions,
`extraPermissions`, and whatever `permissions` were manually set on the
document before saving. -/
def preSave (u : UserDoc) : UserDoc :=
  { u with permissions :=
      jsSetDedup (computedRolePermissions u ++ u.extraPermissions ++ u.permissions) }

theorem mem_jsSetDedupAux (s : String) :
    ∀ (l seen : List String),
      s ∈ jsSetDedupAux l seen ↔ s ∈ l ∧ ¬ s ∈ seen := by
  intro l
  induction l with
  | nil => intro seen; simp [jsSetDedupAux]
  | cons x xs ih =>
    intro seen
    by_cases hx : jsIncludes seen x = true
    · have hxs : x ∈ seen := (jsIncludes_iff _ _).mp hx
      simp only [jsSetDedupAux, if_pos hx, ih, List.mem_cons]
      constructor
      · rintro ⟨h1, h2⟩; exact ⟨Or.inr h1, h2⟩
      · rintro ⟨h1 | h1, h2⟩
        · exact absurd (h1 ▸ hxs) h2
        · exact ⟨h1, h2⟩
    · have hxs : ¬ x ∈ seen := fun h => hx ((jsIncludes_iff _ _).mpr h)
      simp only [jsSetDedupAux, if_neg hx, List.mem_cons, ih]
      by_cases hsx : s = x
      · subst hsx; simp [hxs]
      · simp [hsx]

theorem mem_jsSetDedup (s : String) (l : List String) :
    s ∈ jsSetDedup l ↔ s ∈ l := by
  simp [jsSetDedup, mem_jsSetDedupAux]

theorem mem_preSave_permissions (u : UserDoc) (p : String) :
    p ∈ (preSave u).permissions ↔
      p ∈ computedRolePermissions u ∨ p ∈ u.extraPermissions ∨
        p ∈ u.permissions := by
  simp [preSave, mem_jsSetDedup, or_assoc]

theorem preSave_role (u : UserDoc) : (preSave u).role = u.role := rfl

theorem preSave_rolesPerms (u : UserDoc) :
    (preSave u).rolesPerms = u.rolesPerms := rfl

theorem preSave_extraPermissions (u : UserDoc) :
    (preSave u).extraPermissions = u.extraPermissions := rfl

/-- C2: after the pre-save hook runs, the stored effective permission set
contains every `extraPermissions` entry, every permission of every `Role`
document assigned through the multi-role `roles` array, and — on the
legacy single-role path — every default permission of the assigned role.
Every mutation path of the service persists through `save`, so this is the
invariant of every successfully saved document. -/
theorem preSave_effective_superset :
    ∀ u : UserDoc,
      (∀ p ∈ (preSave u).extraPermissions, p ∈ (preSave u).permissions) ∧
      (∀ rp ∈ (preSave u).rolesPerms, ∀ p ∈ rp, p ∈ (preSave u).permissions) ∧
      ((preSave u).rolesPerms = [] → ∀ r : String, (preSave u).role = some r →
        ∀ p ∈ getRolePermissions r, p ∈ (preSave u).permissions) := by
  intro u
  refine ⟨?_, ?_, ?_⟩
  · intro p hp
    rw [preSave_extraPermissions] at hp
    exact (mem_preSave_permissions u p).mpr (Or.inr (Or.inl hp))
  · intro rp hrp p hp
    rw [preSave_rolesPerms] at hrp
    refine (mem_preSave_permissions u p).mpr (Or.inl ?_)
    unfold computedRolePermissions
    match hu : u.rolesPerms with
    | [] => rw [hu] at hrp; simp at hrp
    | l :: ls =>
      rw [hu] at hrp
      exact List.mem_flatten.mpr ⟨rp, hrp, hp⟩
  · intro hrp r hr p hp
    rw [preSave_rolesPerms] at hrp
    rw [preSave_role] at hr
    refine (mem_preSave_permissions u p).mpr (Or.inl ?_)
    unfold computedRolePermissions
    rw [hrp, hr]
    by_cases hre : r = ""
    · subst hre; simp [getRolePermissions, ROLE_PERMISSIONS] at hp
    · simp [hre]; exact hp

theorem preSave_effective_superset_witness :
    "payment:refund" ∈
      (preSave ⟨some "student", [], [], ["payment:refund"]⟩).permissions :=
  (preSave_effective_superset ⟨some "student", [], [], ["payment:refund"]⟩).1
    "payment:refund" (by decide)

/-- C8: for a legacy-mode super-admin document (the path the claim
describes: recomputation "from the role's default table unioned with
extraPermissions and any manually set permissions"), the saved effective
permission set equals the full catalog `ALL_PERMISSIONS` as a set,
whatever catalog permissions `extraPermissions` (or the manual
`permissions` field) contain. -/
theorem preSave_superAdmin_universal :
    ∀ u : UserDoc,
      u.role = some "super-admin" →
      u.rolesPerms = [] →
      (∀ p ∈ u.extraPermissions, p ∈ ALL_PERMISSIONS) →
      (∀ p ∈ u.permissions, p ∈ ALL_PERMISSIONS) →
      ∀ p : String, p ∈ (preSave u).permissions ↔ p ∈ ALL_PERMISSIONS := by
  intro u hrole hrp hextra hmanual p
  have hcomp : computedRolePermissions u = ALL_PERMISSIONS := by
    unfold computedRolePermissions
    rw [hrp, hrole]
    rfl
  rw [mem_preSave_permissions, hcomp]
  constructor
  · rintro (h | h | h)
    · exact h
    · exact hextra p h
    · exact hmanual p h
  · exact Or.inl

theorem preSave_superAdmin_universal_witness :
    "system:backup" ∈
      (preSave ⟨some "super-admin", [], [], ["course:view"]⟩).permissions :=
  (preSave_superAdmin_universal ⟨some "super-admin", [], [], ["course:view"]⟩
    rfl rfl (by decide) (by simp) "system:backup").mpr (by decide)

/-! ### Principal store and the role-management service (claims C3–C6, C9)

`role-management.service.ts`. The Mongoose collection is an association
list keyed by user id; `User.findById` is `dbLookup`; `user.save()` runs
the pre-save hook and writes the document back; a thrown `Error` is
`Except.error` with the thrown message (leaving the caller's database
value untouched, as an exception leaves the store unmodified). -/

/-- The user collection, keyed by id. -/
def Db : Type := List (String × UserDoc)

/-- `User.findById`. -/
def dbLookup (db : Db) (id : String) : Option UserDoc :=
  match db with
  | [] => none
  | (k, u) :: rest => if k = id then some u else dbLookup rest id

/-- Persist a (pre-save-processed) document under its id. -/
def dbUpdate (db : Db) (id : String) (u : UserDoc) : Db :=
  match db with
  | [] => []
  | (k, v) :: rest =>
    if k = id then (k, u) :: dbUpdate rest id u
    else (k, v) :: dbUpdate rest id u

/-- JS `user.role || "student"`, the fallback used throughout the service
(absent or empty role is replaced by `"student"`). -/
def roleOrStudent (r : Option String) : String :=
  match r with
  | some s => if s = "" then "student" else s
  | none => "student"

/-- Whether an `Except` carries a success value. -/
def exceptIsOk (e : Except String Db) : Bool :=
  match e with
  | .ok _ => true
  | .error _ => false

/-- `RoleManagementService.assignRole`: look up target and assigner, check
the assigner is strictly senior to both the target's current role and the
new role, then set `role` and `permissions` and save (which re-runs the
pre-save hook). -/
def assignRole (db : Db) (userId newRole assignedBy : String) :
    Except String Db :=
  match dbLookup db userId with
  | none => .error "User not found"
  | some user =>
    match dbLookup db assignedBy with
    | none => .error "Assigner not found"
    | some assigner =>
      if !(canManageUser (roleOrStudent assigner.role) (roleOrStudent user.role)) then
        .error "Insufficient privileges to change user role"
      else if !(canManageUser (roleOrStudent assigner.role) newRole) then
        .error "Cannot assign role higher than or equal to your own"
      else
        let user' : UserDoc := { user with role := some newRole, permissions := getRolePermissions newRole }
        .ok (dbUpdate db userId (preSave user'))

/-- `RoleManagementService.removeCustomPermissions`: only an admin or
super-admin actor; drop each listed permission from the stored
`permissions` unless the target's current role also grants it; save. -/
def removeCustomPermissions (db : Db) (userId : String)
    (permissions : List String) (removedBy : String) : Except String Db :=
  match dbLookup db userId with
  | none => .error "User not found"
  | some user =>
    match dbLookup db removedBy with
    | none => .error "Remover not found"
    | some remover =>
      if !(jsIncludes ["admin", "super-admin"] (roleOrStudent remover.role)) then
        .error "Only admins can remove custom permissions"
      else
        let rolePerms : List String := getRolePermissions (roleOrStudent user.role)
        let user' : UserDoc := { user with permissions := user.permissions.filter (fun p => !(jsIncludes permissions p) || jsIncludes rolePerms p) }
        .ok (dbUpdate db userId (preSave user'))

/-- `RoleManagementService.resetToRoleDefaults`: actor must be strictly
senior to the target; set the stored `permissions` to the target's
current-role defaults and save. (The code never touches
`extraPermissions`.) -/
def resetToRoleDefaults (db : Db) (userId resetBy : String) :
    Except String Db :=
  match dbLookup db userId with
  | none => .error "User not found"
  | some user =>
    match dbLookup db resetBy with
    | none => .error "Resetter not found"
    | some resetter =>
      if !(canManageUser (roleOrStudent resetter.role) (roleOrStudent user.role)) then
        .error "Insufficient privileges to reset user permissions"
      else
        let user' : UserDoc := { user with permissions := getRolePermissions (roleOrStudent user.role) }
        .ok (dbUpdate db userId (preSave user'))

/-- Result record of `bulkAssignRole`: ids that succeeded, and
`(id, error message)` pairs for the ones that failed. -/
structure BulkResult where
  success : List String
  failed : List (String × String)
deriving DecidableEq, Repr

/-- The `for … of userIds` loop of `bulkAssignRole`: apply `assignRole`
per target, catching each failure and continuing with the database state
left by the previous iterations. -/
def bulkAssignLoop (assignedBy newRole : String) :
    Db → List String → BulkResult × Db
  | db, [] => (⟨[], []⟩, db)
  | db, userId :: rest =>
    match assignRole db userId newRole assignedBy with
    | .ok db' =>
      let (r, dbf) := bulkAssignLoop assignedBy newRole db' rest
      ({ r with success := userId :: r.success }, dbf)
    | .error e =>
      let (r, dbf) := bulkAssignLoop assignedBy newRole db rest
      ({ r with failed := (userId, e) :: r.failed }, dbf)

/-- `RoleManagementService.bulkAssignRole`: the assigner must exist and be
`admin` or `super-admin`; then each target is processed independently. -/
def bulkAssignRole (db : Db) (userIds : List String)
    (newRole assignedBy : String) : Except String (BulkResult × Db) :=
  match dbLookup db assignedBy with
  | none => .error "Assigner not found"
  | some assigner =>
    if !(jsIncludes ["admin", "super-admin"] (roleOrStudent assigner.role)) then
      .error "Only admins can perform bulk role assignments"
    else
      .ok (bulkAssignLoop assignedBy newRole db userIds)

/-- Result of `validateRoleTransition`. -/
structure ValidationResult where
  valid : Bool
  error : Option String
deriving DecidableEq, Repr

/-- `RoleManagementService.validateRoleTransition`: the pure dry-run form
of the `assignRole` precondition. -/
def validateRoleTransition (currentRole newRole assignerRole : String) :
    ValidationResult :=
  if !(canManageUser assignerRole newRole) then
    ⟨false, some "Cannot assign role higher than or equal to your own"⟩
  else if !(canManageUser assignerRole currentRole) then
    ⟨false, some "Cannot modify user with higher or equal role"⟩
  else
    ⟨true, none⟩

/-! ### Store lemmas -/

theorem dbLookup_dbUpdate_self (db : Db) (id : String) (v : UserDoc)
    (h : (dbLookup db id).isSome = true) :
    dbLookup (dbUpdate db id v) id = some v := by
  induction db with
  | nil => simp [dbLookup] at h
  | cons kv rest ih =>
    obtain ⟨k, u⟩ := kv
    by_cases hk : k = id
    · subst hk
      simp [dbUpdate, dbLookup]
    · simp only [dbLookup, if_neg hk] at h
      simp only [dbUpdate, if_neg hk, dbLookup]
      exact ih h

theorem dbLookup_dbUpdate_ne (db : Db) (id id' : String) (v : UserDoc)
    (h : id' ≠ id) :
    dbLookup (dbUpdate db id v) id' = dbLookup db id' := by
  induction db with
  | nil => rfl
  | cons kv rest ih =>
    obtain ⟨k, u⟩ := kv
    by_cases hk : k = id
    · subst hk
      simp only [dbUpdate, if_pos rfl, dbLookup, if_neg (Ne.symm h)]
      exact ih
    · by_cases hk' : k = id'
      · subst hk'
        simp [dbUpdate, if_neg hk, dbLookup]
      · simp only [dbUpdate, if_neg hk, dbLookup, if_neg hk']
        exact ih

/-! ### assignRole and validateRoleTransition (claims C3, C4) -/

/-- Characterization of `assignRole` when both documents are found. -/
theorem assignRole_eq (db : Db) (uid newRole aid : String)
    (target assigner : UserDoc)
    (ht : dbLookup db uid = some target)
    (ha : dbLookup db aid = some assigner) :
    assignRole db uid newRole aid =
      if canManageUser (roleOrStudent assigner.role) (roleOrStudent target.role) then
        if canManageUser (roleOrStudent assigner.role) newRole then
          Except.ok (dbUpdate db uid
            (preSave { target with role := some newRole, permissions := getRolePermissions newRole }))
        else Except.error "Cannot assign role higher than or equal to your own"
      else Except.error "Insufficient privileges to change user role" := by
  by_cases h1 : canManageUser (roleOrStudent assigner.role) (roleOrStudent target.role) = true <;>
    by_cases h2 : canManageUser (roleOrStudent assigner.role) newRole = true <;>
      simp [assignRole, ht, ha, h1, h2]

/-- C3: given that both the target and the assigner exist, `assignRole`
succeeds exactly when the assigner's role is strictly senior to the
target's current role AND to the new role; otherwise it raises one of its
two typed errors (the store value is returned unchanged only on success —
an exception leaves the store unmodified). `validateRoleTransition`
returns `valid = false`, with an error message, in exactly the same cases.
In particular an `admin` actor can neither assign `admin` nor
`super-admin`, nor touch a `super-admin` target. -/
theorem assignRole_guard_matches_validateRoleTransition :
    ∀ (db : Db) (uid aid newRole : String) (target assigner : UserDoc),
      dbLookup db uid = some target →
      dbLookup db aid = some assigner →
      (exceptIsOk (assignRole db uid newRole aid) = true ↔
        (canManageUser (roleOrStudent assigner.role) (roleOrStudent target.role) = true ∧
         canManageUser (roleOrStudent assigner.role) newRole = true)) ∧
      (exceptIsOk (assignRole db uid newRole aid) = false →
        assignRole db uid newRole aid =
            Except.error "Insufficient privileges to change user role" ∨
        assignRole db uid newRole aid =
            Except.error "Cannot assign role higher than or equal to your own") ∧
      ((validateRoleTransition (roleOrStudent target.role) newRole
          (roleOrStudent assigner.role)).valid = true ↔
        (canManageUser (roleOrStudent assigner.role) (roleOrStudent target.role) = true ∧
         canManageUser (roleOrStudent assigner.role) newRole = true)) ∧
      ((validateRoleTransition (roleOrStudent target.role) newRole
          (roleOrStudent assigner.role)).valid = false →
        ((validateRoleTransition (roleOrStudent target.role) newRole
          (roleOrStudent assigner.role)).error).isSome = true) ∧
      canManageUser "admin" "admin" = false ∧
      canManageUser "admin" "super-admin" = false ∧
      canManageUser "super-admin" "admin" = true := by
  intro db uid aid newRole target assigner ht ha
  rw [assignRole_eq db uid newRole aid target assigner ht ha]
  by_cases h1 : canManageUser (roleOrStudent assigner.role) (roleOrStudent target.role) = true <;>
    by_cases h2 : canManageUser (roleOrStudent assigner.role) newRole = true <;>
      simp [validateRoleTransition, exceptIsOk, h1, h2] <;> decide

/-- Sample documents for the witnesses. -/
def studentDoc : UserDoc := ⟨some "student", [], ["quiz:take"], []⟩

def adminDoc : UserDoc := ⟨some "admin", [], [], []⟩

def sampleDb : Db := [("target", studentDoc), ("actor", adminDoc)]

theorem assignRole_guard_matches_validateRoleTransition_witness :
    exceptIsOk (assignRole sampleDb "target" "author" "actor") = true :=
  ((assignRole_guard_matches_validateRoleTransition sampleDb "target" "actor"
    "author" studentDoc adminDoc rfl rfl).1).mpr (by decide)

/-- The document stored for the target by a successful `assignRole`. -/
def assignedDoc (target : UserDoc) (newRole : String) : UserDoc :=
  preSave { target with role := some newRole, permissions := getRolePermissions newRole }

/-- C4: when `assignRole` succeeds on a legacy-mode target (empty
multi-role array), the stored target document has `role = newRole` and its
effective permission set is exactly `getRolePermissions newRole` unioned
with the target's `extraPermissions`: any prior permission outside those
two sets is dropped. -/
theorem assignRole_success_resets_permissions :
    ∀ (db : Db) (uid aid newRole : String) (target : UserDoc) (db' : Db),
      dbLookup db uid = some target →
      target.rolesPerms = [] →
      assignRole db uid newRole aid = Except.ok db' →
      dbLookup db' uid = some (assignedDoc target newRole) ∧
      (assignedDoc target newRole).role = some newRole ∧
      (∀ p : String, p ∈ (assignedDoc target newRole).permissions ↔
        (p ∈ getRolePermissions newRole ∨ p ∈ target.extraPermissions)) := by
  intro db uid aid newRole target db' ht hrp hok
  have hdb' : db' = dbUpdate db uid (assignedDoc target newRole) := by
    rcases hA : dbLookup db aid with _ | assigner
    · rw [assignRole, ht, hA] at hok
      exact absurd hok (by simp)
    · rw [assignRole_eq db uid newRole aid target assigner ht hA] at hok
      by_cases h1 : canManageUser (roleOrStudent assigner.role) (roleOrStudent target.role) = true <;>
        by_cases h2 : canManageUser (roleOrStudent assigner.role) newRole = true <;>
          simp [h1, h2] at hok
      exact hok.symm
  refine ⟨?_, ?_, ?_⟩
  · rw [hdb']
    exact dbLookup_dbUpdate_self db uid _ (by rw [ht]; rfl)
  · rfl
  · intro p
    rw [assignedDoc, mem_preSave_permissions]
    by_cases hnr : newRole = ""
    · subst hnr
      have hempty : getRolePermissions "" = [] := rfl
      simp [computedRolePermissions, hrp, hempty]
    · simp only [computedRolePermissions, hrp, hnr, if_false]
      tauto

theorem assignRole_success_resets_permissions_witness :
    "blog:create" ∈ (assignedDoc studentDoc "author").permissions :=
  ((assignRole_success_resets_permissions sampleDb "target" "actor" "author"
    studentDoc (dbUpdate sampleDb "target" (assignedDoc studentDoc "author"))
    rfl rfl rfl).2.2 "blog:create").mpr (Or.inl (by decide))

/-! ### resetToRoleDefaults (claim C5) -/

/-- The document stored for the target by a successful
`resetToRoleDefaults`: the stored `permissions` are set to the current
role's defaults and the pre-save hook then re-merges `extraPermissions`
(which the code never clears). -/
def resetDoc (t : UserDoc) : UserDoc :=
  preSave { t with permissions := getRolePermissions (roleOrStudent t.role) }

/-- Characterization of `resetToRoleDefaults` when both documents are
found. -/
theorem resetToRoleDefaults_eq (db : Db) (uid aid : String)
    (target resetter : UserDoc)
    (ht : dbLookup db uid = some target)
    (ha : dbLookup db aid = some resetter) :
    resetToRoleDefaults db uid aid =
      if canManageUser (roleOrStudent resetter.role) (roleOrStudent target.role) then
        Except.ok (dbUpdate db uid (resetDoc target))
      else Except.error "Insufficient privileges to reset user permissions" := by
  by_cases h : canManageUser (roleOrStudent resetter.role) (roleOrStudent target.role) = true <;>
    simp [resetToRoleDefaults, resetDoc, ht, ha, h]

/-- Effective set after a reset on a legacy-mode target: the current
role's defaults together with the (untouched) `extraPermissions`. -/
theorem mem_resetDoc (t : UserDoc) (hrp : t.rolesPerms = []) (p : String) :
    p ∈ (resetDoc t).permissions ↔
      p ∈ getRolePermissions (roleOrStudent t.role) ∨ p ∈ t.extraPermissions := by
  rw [resetDoc, mem_preSave_permissions]
  rcases hrole : t.role with _ | r
  · simp [computedRolePermissions, hrp, roleOrStudent]
    tauto
  · by_cases hre : r = ""
    · subst hre
      simp [computedRolePermissions, hrp, roleOrStudent]
      tauto
    · simp [computedRolePermissions, hrp, roleOrStudent, hre]
      tauto

/-- A target with an extra grant (`system:backup`) beyond its `user` role,
and an effective set already containing it. -/
def resetTargetDoc : UserDoc :=
  ⟨some "user", [],
   ["course:view", "blog:view", "blog:comment", "internship:view",
    "internship:apply", "user:view_profile", "user:edit_profile",
    "system:backup"],
   ["system:backup"]⟩

def resetDb : Db := [("target", resetTargetDoc), ("actor", adminDoc)]

/-- C5 counterexample: the claim says a successful `resetToRoleDefaults`
leaves `effectivePermissions = permissionsFor(target.role)` and an EMPTY
`extraPermissions` set. On an admin resetting a `user`-role target that
holds the extra grant `system:backup`, the reset succeeds but the stored
document still has `extraPermissions = ["system:backup"]` and its
effective set still contains `system:backup`, which the `user` role does
not grant. -/
theorem resetToRoleDefaults_counterexample :
    resetToRoleDefaults resetDb "target" "actor" =
      Except.ok (dbUpdate resetDb "target" (resetDoc resetTargetDoc)) ∧
    "system:backup" ∈ (resetDoc resetTargetDoc).permissions ∧
    "system:backup" ∉ getRolePermissions "user" ∧
    (resetDoc resetTargetDoc).extraPermissions = ["system:backup"] :=
  ⟨rfl, by decide, by decide, rfl⟩

/-- C5 amended: `resetToRoleDefaults` is permitted exactly when the actor
is strictly senior to the target; on success (legacy-mode target) the
stored effective set equals `permissionsFor(target.role)` UNIONED WITH the
target's `extraPermissions`, and `extraPermissions` is left unchanged (not
cleared). The operation is idempotent: a second reset succeeds and stores
the same permission list. -/
theorem resetToRoleDefaults_amended :
    ∀ (db : Db) (uid aid : String) (target actor : UserDoc),
      dbLookup db uid = some target →
      dbLookup db aid = some actor →
      target.rolesPerms = [] →
      (exceptIsOk (resetToRoleDefaults db uid aid) = true ↔
        canManageUser (roleOrStudent actor.role) (roleOrStudent target.role) = true) ∧
      (∀ db' : Db, resetToRoleDefaults db uid aid = Except.ok db' →
        dbLookup db' uid = some (resetDoc target) ∧
        (resetDoc target).extraPermissions = target.extraPermissions ∧
        (∀ p : String, p ∈ (resetDoc target).permissions ↔
          p ∈ getRolePermissions (roleOrStudent target.role) ∨
            p ∈ target.extraPermissions) ∧
        resetToRoleDefaults db' uid aid =
          Except.ok (dbUpdate db' uid (resetDoc (resetDoc target))) ∧
        (resetDoc (resetDoc target)).permissions = (resetDoc target).permissions) := by
  intro db uid aid target actor ht ha hrp
  rw [resetToRoleDefaults_eq db uid aid target actor ht ha]
  by_cases hcan : canManageUser (roleOrStudent actor.role) (roleOrStudent target.role) = true
  case neg =>
    refine ⟨by simp [exceptIsOk, hcan], ?_⟩
    intro db' hok
    rw [if_neg hcan] at hok
    exact absurd hok (by simp)
  case pos =>
    refine ⟨by simp [exceptIsOk, hcan], ?_⟩
    intro db' hok
    rw [if_pos hcan] at hok
    have hdb' : db' = dbUpdate db uid (resetDoc target) := by
      exact (Except.ok.injEq _ _ ▸ congrArg id hok).symm ▸ (Except.ok.inj hok).symm
    have hne : uid ≠ aid := by
      intro he
      subst he
      rw [ht] at ha
      have : target = actor := by injection ha
      rw [← this] at hcan
      rw [canManageUser_self] at hcan
      exact Bool.false_ne_true hcan
    subst hdb'
    have hlook : dbLookup (dbUpdate db uid (resetDoc target)) uid = some (resetDoc target) :=
      dbLookup_dbUpdate_self db uid _ (by rw [ht]; rfl)
    have hlookA : dbLookup (dbUpdate db uid (resetDoc target)) aid = some actor := by
      rw [dbLookup_dbUpdate_ne db uid aid _ (fun he => hne he.symm)]
      exact ha
    refine ⟨hlook, rfl, ?_, ?_, ?_⟩
    · intro p
      exact mem_resetDoc target hrp p
    · rw [resetToRoleDefaults_eq _ uid aid (resetDoc target) actor hlook hlookA]
      have hrole2 : (resetDoc target).role = target.role := rfl
      rw [if_pos (by rw [hrole2]; exact hcan)]
    · rfl

theorem resetToRoleDefaults_amended_witness :
    exceptIsOk (resetToRoleDefaults resetDb "target" "actor") = true :=
  ((resetToRoleDefaults_amended resetDb "target" "actor" resetTargetDoc
    adminDoc rfl rfl rfl).1).mpr (by decide)

/-! ### removeCustomPermissions (claim C6) -/

/-- The document stored for the target by a successful
`removeCustomPermissions`: listed permissions are filtered out of the
stored `permissions` unless the current role also grants them, then the
pre-save hook re-merges the role defaults and `extraPermissions`. -/
def removeDoc (t : UserDoc) (perms : List String) : UserDoc :=
  preSave { t with permissions := t.permissions.filter (fun p => !(jsIncludes perms p) || jsIncludes (getRolePermissions (roleOrStudent t.role)) p) }

/-- Characterization of `removeCustomPermissions` when both documents are
found. -/
theorem removeCustomPermissions_eq (db : Db) (uid aid : String)
    (perms : List String) (target remover : UserDoc)
    (ht : dbLookup db uid = some target)
    (ha : dbLookup db aid = some remover) :
    removeCustomPermissions db uid perms aid =
      if jsIncludes ["admin", "super-admin"] (roleOrStudent remover.role) then
        Except.ok (dbUpdate db uid (removeDoc target perms))
      else Except.error "Only admins can remove custom permissions" := by
  by_cases h : jsIncludes ["admin", "super-admin"] (roleOrStudent remover.role) = true <;>
    simp [removeCustomPermissions, removeDoc, ht, ha, h]

/-- A `user`-role target holding the extra grant `payment:refund`, already
materialized in its effective set. -/
def removeTargetDoc : UserDoc :=
  ⟨some "user", [],
   ["course:view", "blog:view", "blog:comment", "internship:view",
    "internship:apply", "user:view_profile", "user:edit_profile",
    "payment:refund"],
   ["payment:refund"]⟩

def removeDb : Db := [("target", removeTargetDoc), ("actor", adminDoc)]

/-- C6 counterexample: the claim says that after
`removeCustomPermissions(target, [p], actor)` completes, a listed
permission `p` that the target's role does not grant is absent from the
effective set. But when `p` is in the target's `extraPermissions`
(`payment:refund` here, not granted by role `user`), the pre-save hook
re-merges it: the operation succeeds and `payment:refund` is still in the
stored effective set. -/
theorem removeCustomPermissions_counterexample :
    removeCustomPermissions removeDb "target" ["payment:refund"] "actor" =
      Except.ok (dbUpdate removeDb "target"
        (removeDoc removeTargetDoc ["payment:refund"])) ∧
    "payment:refund" ∈ (removeDoc removeTargetDoc ["payment:refund"]).permissions ∧
    "payment:refund" ∉ getRolePermissions "user" :=
  ⟨rfl, by decide, by decide⟩

/-- C6 amended: `removeCustomPermissions` is permitted exactly for an
`admin` or `super-admin` actor; on success (legacy-mode target with a
recognized, non-empty role string), every listed permission that the
target's role grants remains in the stored effective set, and every listed
permission that the role does not grant is removed PROVIDED it is not in
the target's `extraPermissions` — extra grants re-merged by the pre-save
hook survive the removal. -/
theorem removeCustomPermissions_amended :
    ∀ (db : Db) (uid aid : String) (perms : List String)
      (target remover : UserDoc) (r : String),
      dbLookup db uid = some target →
      dbLookup db aid = some remover →
      target.rolesPerms = [] →
      target.role = some r →
      r ≠ "" →
      (exceptIsOk (removeCustomPermissions db uid perms aid) = true ↔
        jsIncludes ["admin", "super-admin"] (roleOrStudent remover.role) = true) ∧
      (∀ db' : Db, removeCustomPermissions db uid perms aid = Except.ok db' →
        dbLookup db' uid = some (removeDoc target perms) ∧
        (∀ p ∈ perms, p ∈ getRolePermissions r →
          p ∈ (removeDoc target perms).permissions) ∧
        (∀ p ∈ perms, p ∉ getRolePermissions r → p ∉ target.extraPermissions →
          p ∉ (removeDoc target perms).permissions)) := by
  intro db uid aid perms target remover r ht ha hrp hrole hre
  rw [removeCustomPermissions_eq db uid aid perms target remover ht ha]
  have hros : roleOrStudent target.role = r := by
    rw [hrole]; simp [roleOrStudent, hre]
  have hcomp : computedRolePermissions { target with permissions := target.permissions.filter (fun p => !(jsIncludes perms p) || jsIncludes (getRolePermissions (roleOrStudent target.role)) p) } = getRolePermissions r := by
    unfold computedRolePermissions
    have : ({ target with permissions := target.permissions.filter (fun p => !(jsIncludes perms p) || jsIncludes (getRolePermissions (roleOrStudent target.role)) p) } : UserDoc).rolesPerms = target.rolesPerms := rfl
    rw [this, hrp, hrole]
    simp [hre]
  by_cases hadm : jsIncludes ["admin", "super-admin"] (roleOrStudent remover.role) = true
  case neg =>
    refine ⟨by simp [exceptIsOk, hadm], ?_⟩
    intro db' hok
    rw [if_neg hadm] at hok
    exact absurd hok (by simp)
  case pos =>
    refine ⟨by simp [exceptIsOk, hadm], ?_⟩
    intro db' hok
    rw [if_pos hadm] at hok
    have hdb' : db' = dbUpdate db uid (removeDoc target perms) :=
      (Except.ok.inj hok).symm
    subst hdb'
    refine ⟨dbLookup_dbUpdate_self db uid _ (by rw [ht]; rfl), ?_, ?_⟩
    · intro p _ hpr
      rw [removeDoc, mem_preSave_permissions, hcomp]
      exact Or.inl hpr
    · intro p hplist hpr hpe hmem
      rw [removeDoc, mem_preSave_permissions, hcomp] at hmem
      rcases hmem with h | h | h
      · exact hpr h
      · exact hpe h
      · rw [List.mem_filter] at h
        have hincl : jsIncludes perms p = true := (jsIncludes_iff _ _).mpr hplist
        have hnrole : jsIncludes (getRolePermissions (roleOrStudent target.role)) p = false := by
          rw [hros]
          by_cases hc : jsIncludes (getRolePermissions r) p = true
          · exact absurd ((jsIncludes_iff _ _).mp hc) hpr
          · exact Bool.not_eq_true _ ▸ eq_false_of_ne_true hc
        rw [hincl, hnrole] at h
        simp at h

theorem removeCustomPermissions_amended_witness :
    exceptIsOk
      (removeCustomPermissions removeDb "target" ["payment:refund"] "actor") =
        true :=
  ((removeCustomPermissions_amended removeDb "target" "actor"
    ["payment:refund"] removeTargetDoc adminDoc "user" rfl rfl rfl rfl
    (by decide)).1).mpr (by decide)

/-! ### bulkAssignRole (claim C9) -/

/-- Whether, in a given store state, the actor role may manage the user
stored under `id` (false also when the user is missing). -/
def manageableBy (db : Db) (actorRole : String) (id : String) : Bool :=
  match dbLookup db id with
  | some t => canManageUser actorRole (roleOrStudent t.role)
  | none => false

theorem filter_congr_list (p q : String → Bool) :
    ∀ l : List String, (∀ x ∈ l, p x = q x) → l.filter p = l.filter q := by
  intro l
  induction l with
  | nil => intro _; rfl
  | cons x xs ih =>
    intro h
    have hx := h x (List.mem_cons_self x xs)
    rw [List.filter_cons, List.filter_cons, hx,
      ih (fun y hy => h y (List.mem_cons_of_mem x hy))]

theorem length_filter_add_length_filter_not (p : String → Bool)
    (l : List String) :
    (l.filter p).length + (l.filter (fun a => !(p a))).length = l.length := by
  induction l with
  | nil => rfl
  | cons x xs ih =>
    by_cases h : p x = true
    · simp [List.filter_cons, h]
      omega
    · simp [List.filter_cons, h]
      omega

/-- The loop of `bulkAssignRole` processes every target: the ids that
succeed are exactly those whose stored role the assigner can manage (in
the state at the start of the loop), and the rest land in the failed list
with their error — one target's failure never aborts the others. -/
theorem bulkAssignLoop_counts (aid newRole : String) (assigner : UserDoc)
    (hA : canManageUser (roleOrStudent assigner.role) newRole = true) :
    ∀ (ids : List String) (db : Db),
      dbLookup db aid = some assigner →
      (∀ id ∈ ids, aid ≠ id) →
      ids.Nodup →
      (∀ id ∈ ids, (dbLookup db id).isSome = true) →
      (bulkAssignLoop aid newRole db ids).1.success.length =
        (ids.filter (fun i => manageableBy db (roleOrStudent assigner.role) i)).length ∧
      (bulkAssignLoop aid newRole db ids).1.failed.length =
        (ids.filter (fun i => !(manageableBy db (roleOrStudent assigner.role) i))).length := by
  intro ids
  induction ids with
  | nil =>
    intro db _ _ _ _
    exact ⟨rfl, rfl⟩
  | cons id rest ih =>
    intro db hAlook hne hnodup hsome
    have hid : (dbLookup db id).isSome = true := hsome id (List.mem_cons_self id rest)
    rcases htv : dbLookup db id with _ | t
    · rw [htv] at hid
      exact absurd hid (by simp)
    · have hneid : aid ≠ id := hne id (List.mem_cons_self id rest)
      have hidnotin : id ∉ rest := (List.nodup_cons.mp hnodup).1
      have hnodup' : rest.Nodup := (List.nodup_cons.mp hnodup).2
      have hmanid : manageableBy db (roleOrStudent assigner.role) id =
          canManageUser (roleOrStudent assigner.role) (roleOrStudent t.role) := by
        unfold manageableBy
        rw [htv]
      by_cases hman : canManageUser (roleOrStudent assigner.role) (roleOrStudent t.role) = true
      · have hpid : manageableBy db (roleOrStudent assigner.role) id = true := by
          rw [hmanid]; exact hman
        have hok : assignRole db id newRole aid =
            Except.ok (dbUpdate db id (assignedDoc t newRole)) := by
          rw [assignRole_eq db id newRole aid t assigner htv hAlook,
            if_pos hman, if_pos hA]
          rfl
        have hAlook' : dbLookup (dbUpdate db id (assignedDoc t newRole)) aid = some assigner := by
          rw [dbLookup_dbUpdate_ne db id aid _ hneid]
          exact hAlook
        have hagree : ∀ i ∈ rest,
            dbLookup (dbUpdate db id (assignedDoc t newRole)) i = dbLookup db i := by
          intro i hi
          exact dbLookup_dbUpdate_ne db id i _ (fun he => hidnotin (he ▸ hi))
        have hsome' : ∀ i ∈ rest,
            (dbLookup (dbUpdate db id (assignedDoc t newRole)) i).isSome = true := by
          intro i hi
          rw [hagree i hi]
          exact hsome i (List.mem_cons_of_mem id hi)
        have hres := ih (dbUpdate db id (assignedDoc t newRole)) hAlook'
          (fun i hi => hne i (List.mem_cons_of_mem id hi)) hnodup' hsome'
        have hfa : rest.filter (fun i => manageableBy (dbUpdate db id (assignedDoc t newRole)) (roleOrStudent assigner.role) i) =
            rest.filter (fun i => manageableBy db (roleOrStudent assigner.role) i) := by
          refine filter_congr_list _ _ rest (fun i hi => ?_)
          unfold manageableBy
          rw [hagree i hi]
        have hfb : rest.filter (fun i => !(manageableBy (dbUpdate db id (assignedDoc t newRole)) (roleOrStudent assigner.role) i)) =
            rest.filter (fun i => !(manageableBy db (roleOrStudent assigner.role) i)) := by
          refine filter_congr_list _ _ rest (fun i hi => ?_)
          unfold manageableBy
          rw [hagree i hi]
        rcases hloop : bulkAssignLoop aid newRole (dbUpdate db id (assignedDoc t newRole)) rest with ⟨r, dbf⟩
        rw [hloop] at hres
        constructor
        · simp only [bulkAssignLoop, hok, hloop, List.filter_cons, hpid,
            if_true, List.length_cons]
          rw [← hfa]
          exact congrArg Nat.succ hres.1
        · simp only [bulkAssignLoop, hok, hloop, List.filter_cons, hpid,
            Bool.not_true, if_false, Bool.false_eq_true]
          rw [← hfb]
          exact hres.2
      · have hpid : manageableBy db (roleOrStudent assigner.role) id = false := by
          rw [hmanid]
          exact eq_false_of_ne_true hman
        have herr : assignRole db id newRole aid =
            Except.error "Insufficient privileges to change user role" := by
          rw [assignRole_eq db id newRole aid t assigner htv hAlook, if_neg hman]
        have hres := ih db hAlook
          (fun i hi => hne i (List.mem_cons_of_mem id hi)) hnodup'
          (fun i hi => hsome i (List.mem_cons_of_mem id hi))
        rcases hloop : bulkAssignLoop aid newRole db rest with ⟨r, dbf⟩
        rw [hloop] at hres
        constructor
        · simp only [bulkAssignLoop, herr, hloop, List.filter_cons, hpid,
            Bool.false_eq_true, if_false]
          exact hres.1
        · simp only [bulkAssignLoop, herr, hloop, List.filter_cons, hpid,
            Bool.not_false, if_true, List.length_cons]
          exact congrArg Nat.succ hres.2

/-- C9: `bulkAssignRole` rejects an assigner whose role is not `admin` or
`super-admin`; with an admin/super-admin assigner who is senior to the new
role, it processes every distinct existing target independently
(continue-on-error: it returns `ok` with a success list and a per-item
failed list, never aborting), and when exactly one target's current role
is not manageable by the assigner it reports `N - 1` successes and `1`
failure. -/
theorem bulkAssignRole_partial_failure :
    (∀ (db : Db) (ids : List String) (newRole aid : String)
        (assigner : UserDoc),
      dbLookup db aid = some assigner →
      jsIncludes ["admin", "super-admin"] (roleOrStudent assigner.role) = false →
      bulkAssignRole db ids newRole aid =
        Except.error "Only admins can perform bulk role assignments") ∧
    (∀ (db : Db) (ids : List String) (newRole aid : String)
        (assigner : UserDoc),
      dbLookup db aid = some assigner →
      jsIncludes ["admin", "super-admin"] (roleOrStudent assigner.role) = true →
      canManageUser (roleOrStudent assigner.role) newRole = true →
      (∀ id ∈ ids, aid ≠ id) →
      ids.Nodup →
      (∀ id ∈ ids, (dbLookup db id).isSome = true) →
      (ids.filter (fun i => !(manageableBy db (roleOrStudent assigner.role) i))).length = 1 →
      bulkAssignRole db ids newRole aid =
        Except.ok (bulkAssignLoop aid newRole db ids) ∧
      (bulkAssignLoop aid newRole db ids).1.success.length = ids.length - 1 ∧
      (bulkAssignLoop aid newRole db ids).1.failed.length = 1) := by
  constructor
  · intro db ids newRole aid assigner ha hadm
    simp [bulkAssignRole, ha, hadm]
  · intro db ids newRole aid assigner ha hadm hA hne hnodup hsome hbad
    have hcounts := bulkAssignLoop_counts aid newRole assigner hA ids db
      ha hne hnodup hsome
    have hsum := length_filter_add_length_filter_not
      (fun i => manageableBy db (roleOrStudent assigner.role) i) ids
    refine ⟨by simp [bulkAssignRole, ha, hadm], ?_, ?_⟩
    · rw [hcounts.1]
      rw [hbad] at hsum
      omega
    · rw [hcounts.2]
      exact hbad

def superAdminDoc : UserDoc := ⟨some "super-admin", [], [], []⟩

def bulkDb : Db :=
  [("actor", adminDoc), ("t1", studentDoc), ("t2", superAdminDoc)]

theorem bulkAssignRole_partial_failure_witness :
    (bulkAssignLoop "actor" "editor" bulkDb ["t1", "t2"]).1.success.length = 1 :=
  (bulkAssignRole_partial_failure.2 bulkDb ["t1", "t2"] "editor" "actor"
    adminDoc rfl rfl (by decide) (by decide) (by decide) (by decide)
    (by decide)).2.1
